import Mathlib

/-!
Shallow embedding of the HippoMind session engine
(`src/backend/api.py`, `src/backend/search.py`, `src/backend/config.py`).

External services (HDBSCAN, the Ollama LLM, the sentence-transformer dense
embedder, the Qdrant vector store) are not code of this repository; they are
modelled as an oracle environment `Env` supplied to every operation.  All code
that lives in the repository itself (the cluster cap, the follow-up filter's
retention logic, the session state machine, the HTTP guards) is translated
directly from the Python source.

Python `float` scores are modelled as `Rat`: the only in-repo float operations
are comparisons against `DIRECT_MATCH_THRESHOLD` and sorting by similarity,
both of which are order-theoretic.  Dense vectors are opaque handles (`Vec`),
since every numeric operation on them happens inside an external oracle call
(HDBSCAN, `dense_model.encode`) or feeds one (the cosine similarity used only
as a sort key, modelled by `Env.sim`).
-/

namespace HippoMind

/-! ## Constants from `config.py` and `search.py` -/

/-- `config.MAX_CLUSTERS = 4`. -/
def MAX_CLUSTERS : Nat := 4

/-- `search.MAX_FOLLOWUP_QUESTIONS = 3`. -/
def MAX_FOLLOWUP_QUESTIONS : Nat := 3

/-- `config.DIRECT_MATCH_THRESHOLD = 0.85`. -/
def DIRECT_MATCH_THRESHOLD : Rat := mkRat 85 100

/-! ## Data model -/

/-- Opaque handle for a dense embedding vector.  The repository never inspects
vector components itself: vectors are produced by Qdrant / the embedder and
consumed by HDBSCAN / the cosine scorer, all external. -/
abbrev Vec := Nat

/-- One retrieved chunk record, as built by `search.search_by_query`
(dict with keys `id`, `vector`, `chunk`, `file`, `chunk_type`, `score`). -/
structure Chunk where
  id : Nat
  vector : Vec
  chunk : String
  file : String
  chunk_type : String
  score : Rat
deriving Repr, DecidableEq

/-- One `{"q": …, "a": …}` entry of `Session.conversation`. -/
structure QA where
  q : String
  a : String
deriving Repr, DecidableEq

/-- One entry of `Session.nav_tree`
(dict with keys `nodeId`, `label`, `depth`, `parentNodeId`, `round`,
`clusterId`, `isOnPath`). -/
structure NavNode where
  nodeId : String
  label : String
  depth : Int
  parentNodeId : Option String
  round : Int
  clusterId : Option Int
  isOnPath : Bool
deriving Repr, DecidableEq

/-- `Session.status` values. -/
inductive Status where
  | created
  | clusters
  | followup
  | found
  | exhausted
deriving Repr, DecidableEq

/-- `Session.snapshots[round] = (points_copy, conversation_copy, followup_count)`. -/
abbrev Snapshot := List Chunk × List QA × Nat

/-- The oracle environment: every external service the engine calls.
`hdbscan` stands for `hdbscan.HDBSCAN(...).fit_predict` on the row-normalised
vectors; `labelLLM`/`followupLLM` return `none` when the Ollama call raises
(the Python code catches this and falls back); `encode` returns `none` when
`dense_model.encode` raises (the Python code does NOT catch this); `sim` is
the float cosine similarity of two dense vectors. -/
structure Env where
  hdbscan : List Vec → List Int
  labelLLM : Int → String → Option String
  followupLLM : List (String × String) → List QA → Nat → Option String
  encode : String → Option Vec
  sim : Vec → Vec → Rat

/-! ## Generic helpers for Python dicts and sorted sets -/

/-- Ascending sort (used for Python's `sorted(...)` on numbers). -/
def sortAsc {α : Type} [LinearOrder α] (l : List α) : List α :=
  List.insertionSort (fun a b => a ≤ b) l

/-- Lexicographic code-point comparison on character lists — the order
Python's `sorted()` uses on `str` (and the same order as Mathlib's `≤` on
`String`, here phrased so that the kernel can evaluate it). -/
def charListLe : List Char → List Char → Bool
  | [], _ => true
  | _ :: _, [] => false
  | a :: as, b :: bs => if a < b then true else if b < a then false else charListLe as bs

/-- Python's `≤` on strings. -/
def strLe (a b : String) : Bool := charListLe a.data b.data

/-- Ascending sort for Python's `sorted(...)` on strings. -/
def sortStr (l : List String) : List String :=
  List.insertionSort (fun a b => strLe a b = true) l

/-- Python `d[k]` lookup on an insertion-ordered dict. -/
def getA {κ : Type} {β : Type} [DecidableEq κ] (k : κ) : List (κ × β) → Option β
  | [] => none
  | e :: t => if e.1 = k then some e.2 else getA k t

/-- Python `d[k] = v` on an insertion-ordered dict: overwrites in place,
appends if the key is new. -/
def setA {κ : Type} {β : Type} [DecidableEq κ] (k : κ) (v : β) :
    List (κ × β) → List (κ × β)
  | [] => [(k, v)]
  | e :: t => if e.1 = k then (k, v) :: t else e :: setA k v t

/-- Python `d.setdefault(k, []).append(v)` on an insertion-ordered dict. -/
def appendGroup {κ : Type} [DecidableEq κ] (k : κ) (v : String) :
    List (κ × List String) → List (κ × List String)
  | [] => [(k, [v])]
  | e :: t => if e.1 = k then (e.1, e.2 ++ [v]) :: t else e :: appendGroup k v t

/-! ## `search.py` – clustering helpers -/

/-- The comparison realised by `np.argsort(-counts)` over the ascending
`unique` array: larger count first; on equal counts the lower index — hence
the lower original label, since `unique` is ascending — comes first
(numpy's argsort resolves ties by index on arrays of this size, which use its
insertion-sort path). -/
def prefOrder (c : Int → Nat) (a b : Int) : Prop :=
  c b < c a ∨ (c a = c b ∧ a ≤ b)

instance (c : Int → Nat) : DecidableRel (prefOrder c) := fun a b => by
  unfold prefOrder; infer_instance

instance (c : Int → Nat) : IsTotal Int (prefOrder c) := ⟨by
  intro a b
  unfold prefOrder
  by_cases h1 : c b < c a
  · exact Or.inl (Or.inl h1)
  · by_cases h2 : c a < c b
    · exact Or.inr (Or.inl h2)
    · have he : c a = c b := by omega
      rcases le_total a b with h3 | h3
      · exact Or.inl (Or.inr ⟨he, h3⟩)
      · exact Or.inr (Or.inr ⟨he.symm, h3⟩)⟩

instance (c : Int → Nat) : IsTrans Int (prefOrder c) := ⟨by
  intro a b d hab hbd
  unfold prefOrder at *
  rcases hab with h1 | ⟨h1, h2⟩ <;> rcases hbd with h3 | ⟨h3, h4⟩
  · exact Or.inl (by omega)
  · exact Or.inl (by omega)
  · exact Or.inl (by omega)
  · exact Or.inr ⟨by omega, le_trans h2 h4⟩⟩

/-- The `MAX_CLUSTERS` cap at the end of `search.cluster_vectors`:

    unique, counts = np.unique(labels[labels >= 0], return_counts=True)
    if len(unique) > config.MAX_CLUSTERS:
        top_ids = set(unique[np.argsort(-counts)[:config.MAX_CLUSTERS]])
        labels = np.array([l if l in top_ids else -1 for l in labels])
        remap = {old: new for new, old in enumerate(sorted(top_ids))}
        labels = np.array([remap[l] if l in remap else -1 for l in labels])
-/
def capLabels (raw : List Int) : List Int :=
  let nn := raw.filter (fun l => 0 ≤ l)
  let vals := sortAsc nn.dedup
  if MAX_CLUSTERS < vals.length then
    let top := (List.insertionSort (prefOrder (fun v => nn.count v)) vals).take MAX_CLUSTERS
    let topSorted := sortAsc top
    let step1 := raw.map (fun l => if l ∈ top then l else -1)
    step1.map (fun l => if l ∈ topSorted then ((topSorted.indexOf l : Nat) : Int) else -1)
  else raw

/-- `search.cluster_vectors`: row-normalisation and the HDBSCAN run are the
external density clusterer (`Env.hdbscan`); the in-repo cap follows. -/
def cluster_vectors (env : Env) (vectors : List Vec) : List Int :=
  capLabels (env.hdbscan vectors)

/-- `search._aggregate_cluster_text`: concatenate chunk text per cluster,
skipping noise (−1); keys appear in first-occurrence order like a Python dict. -/
def _aggregate_cluster_text (points : List Chunk) (labels : List Int) :
    List (Int × String) :=
  let groups := (points.zip labels).foldl
    (fun acc pl => if pl.2 = -1 then acc else appendGroup pl.2 pl.1.chunk acc) []
  groups.map (fun g => (g.1, String.intercalate "\n\n" g.2))

/-- `search._cluster_files`: cluster id → sorted unique file names. -/
def _cluster_files (points : List Chunk) (labels : List Int) :
    List (Int × List String) :=
  let groups := (points.zip labels).foldl
    (fun acc pl => if pl.2 = -1 then acc else appendGroup pl.2 pl.1.file acc) []
  groups.map (fun g => (g.1, sortStr g.2.dedup))

/-- `collections.Counter(int(l) for l in labels if l != -1)`. -/
def counterOf (labels : List Int) : List (Int × Nat) :=
  labels.foldl
    (fun acc l =>
      if l = -1 then acc
      else match getA l acc with
           | some n => setA l (n + 1) acc
           | none => acc ++ [(l, 1)])
    []

/-- `search.label_clusters`: the LLM labels each cluster from its text
truncated to 3000 characters; on failure the label is `"Cluster <id>"`. -/
def label_clusters (env : Env) (cluster_texts : List (Int × String)) :
    List (Int × String) :=
  cluster_texts.map (fun ct =>
    (ct.1,
     match env.labelLLM ct.1 (ct.2.take 3000) with
     | some lb => lb
     | none => "Cluster " ++ toString ct.1))

/-! ## `search.py` – follow-up helpers -/

/-- `search._build_file_summaries`: file → its chunk texts joined by newline,
truncated to 2000 characters; files in first-occurrence order. -/
def _build_file_summaries (points : List Chunk) : List (String × String) :=
  let groups := points.foldl (fun acc pt => appendGroup pt.file pt.chunk acc) []
  groups.map (fun g => (g.1, (String.intercalate "\n" g.2).take 2000))

/-- The generic fallback used by `search._ask_followup_question` when the LLM
call raises. -/
def fallback_followup_question : String :=
  "Can you describe anything else you remember about the file?"

/-- `search._ask_followup_question`: one LLM call with fallback. -/
def _ask_followup_question (env : Env) (file_summaries : List (String × String))
    (conversation : List QA) (question_num : Nat) : String :=
  match env.followupLLM file_summaries conversation question_num with
  | some q => q
  | none => fallback_followup_question

/-- `search._filter_by_followup`.  Returns `none` when `dense_model.encode`
raises (the exception propagates in Python).  Sorting is by descending
similarity (Python's stable `list.sort(key=lambda x: -x[0])`). -/
def _filter_by_followup (env : Env) (points : List Chunk)
    (conversation : List QA) : Option (List Chunk) :=
  let context := String.intercalate " " (conversation.map (fun m => m.a))
  match env.encode context with
  | none => none
  | some context_vec =>
    let scored := points.map (fun pt => (env.sim context_vec pt.vector, pt))
    let sorteds := List.insertionSort (fun x y : Rat × Chunk => y.1 ≤ x.1) scored
    let median_idx := max 1 (scored.length / 2)
    let kept := (sorteds.take median_idx).map (fun sp => sp.2)
    if kept.length < 3 then
      some ((sorteds.take (max 3 scored.length)).map (fun sp => sp.2))
    else some kept

/-! ## `api.py` – the session -/

/-- `api.Session`.  `created_at` (wall-clock) and `cluster_presentation`
(written once at construction, never read or written again in `api.py`) are
omitted; `_nav_node_counter` is kept as `nav_counter`. -/
structure Session where
  id : String
  query : String
  expanded_query : String
  points : List Chunk
  labels : Option (List Int)
  cluster_labels : List (Int × String)
  cluster_files : List (Int × List String)
  cluster_sizes : List (Int × Nat)
  conversation : List QA
  pending_question : Option String
  followup_count : Nat
  found_file : Option String
  round : Int
  status : Status
  nav_tree : List NavNode
  current_nav_node : Option String
  snapshots : List (Int × Snapshot)
  nav_counter : Nat
deriving Repr, DecidableEq

/-- `Session.unique_files`: `sorted({pt["file"] for pt in self.points})`. -/
def Session.unique_files (s : Session) : List String :=
  sortStr (s.points.map (fun pt => pt.file)).dedup

/-- Inner update step of `Session.file_scores`. -/
def updateBest (f : String) (sc : Rat) : List (String × Rat) → List (String × Rat)
  | [] => [(f, sc)]
  | e :: t =>
    if e.1 = f then (if e.2 < sc then (e.1, sc) :: t else e :: t)
    else e :: updateBest f sc t

/-- `Session.file_scores`: best score per file, sorted by descending score. -/
def Session.file_scores (s : Session) : List (String × Rat) :=
  let best := s.points.foldl (fun acc pt => updateBest pt.file pt.score acc) []
  List.insertionSort (fun x y : String × Rat => y.2 ≤ x.2) best

/-- `Session._generate_followup`. -/
def Session._generate_followup (env : Env) (s : Session) : Session :=
  let q := _ask_followup_question env (_build_file_summaries s.points)
    s.conversation (s.followup_count + 1)
  { s with pending_question := some q, status := .followup }

/-- `Session.do_cluster`: bump the round, snapshot, cluster, label, update the
nav tree — or switch to follow-up mode when every point is noise. -/
def Session.do_cluster (env : Env) (s : Session) : Session :=
  let rnd := s.round + 1
  let snaps := setA rnd (s.points, s.conversation, s.followup_count) s.snapshots
  let labels := cluster_vectors env (s.points.map (fun pt => pt.vector))
  let cluster_texts := _aggregate_cluster_text s.points labels
  let s1 := { s with round := rnd, snapshots := snaps, labels := some labels,
                     cluster_files := _cluster_files s.points labels,
                     cluster_sizes := counterOf labels }
  if cluster_texts.isEmpty then
    Session._generate_followup env { s1 with status := .followup }
  else
    let clabels := label_clusters env cluster_texts
    let sortedPairs := List.insertionSort (fun x y : Int × String => x.1 ≤ y.1) clabels
    let newNodes := sortedPairs.map (fun p =>
      ({ nodeId := "c" ++ toString p.1 ++ "-r" ++ toString rnd,
         label := p.2, depth := rnd, parentNodeId := s1.current_nav_node,
         round := rnd, clusterId := some p.1, isOnPath := false } : NavNode))
    { s1 with cluster_labels := clabels, status := .clusters,
              nav_tree := s1.nav_tree ++ newNodes,
              nav_counter := s1.nav_counter + newNodes.length }

/-- `Session._check_termination_or_recluster`. -/
def Session._check_termination_or_recluster (env : Env) (s : Session) : Session :=
  let files := s.unique_files
  if files.length = 1 then { s with found_file := files.head?, status := .found }
  else if s.points.length < 3 then { s with status := .exhausted }
  else Session.do_cluster env s

/-- The `for entry in self.nav_tree: … break` loop of `Session.pick_cluster`:
mark the first node with the given id as on-path; `none` when absent. -/
def markFirstOnPath (nid : String) : List NavNode → Option (List NavNode)
  | [] => none
  | e :: t =>
    if e.nodeId = nid then some ({ e with isOnPath := true } :: t)
    else (markFirstOnPath nid t).map (fun t2 => e :: t2)

/-- `Session.pick_cluster`: `ValueError` when no labels exist, else narrow
to the chosen cluster and evaluate termination. -/
def Session.pick_cluster (env : Env) (s : Session) (cluster_id : Int) :
    Session × Option String :=
  match s.labels with
  | none => (s, some "No clusters to pick from")
  | some labels =>
    let chosen := "c" ++ toString cluster_id ++ "-r" ++ toString s.round
    let s1 :=
      match markFirstOnPath chosen s.nav_tree with
      | some tree2 => { s with nav_tree := tree2, current_nav_node := some chosen }
      | none => s
    let pts := (s1.points.zip labels).filterMap
      (fun pl => if pl.2 = cluster_id then some pl.1 else none)
    let s2 := { s1 with points := pts }
    (Session._check_termination_or_recluster env s2, none)

/-- `Session.start_followup`. -/
def Session.start_followup (env : Env) (s : Session) : Session :=
  Session._generate_followup env { s with status := .followup }

/-- `Session.answer_followup`.  The error component is `some _` exactly when
the Python method raises: either no pending question (state untouched), or
the dense-embedding call inside `_filter_by_followup` raises — in which case
the conversation has already been extended and the pending question cleared. -/
def Session.answer_followup (env : Env) (s : Session) (answer : String) :
    Session × Option String :=
  match s.pending_question with
  | none => (s, some "No pending question")
  | some q =>
    let s1 := { s with conversation := s.conversation ++ [⟨q, answer⟩],
                       pending_question := none }
    match _filter_by_followup env s1.points s1.conversation with
    | none => (s1, some "dense embedding call failed")
    | some pts =>
      let s2 := { s1 with points := pts, followup_count := s1.followup_count + 1 }
      let files := s2.unique_files
      if files.length = 1 then
        ({ s2 with found_file := files.head?, status := .found }, none)
      else if MAX_FOLLOWUP_QUESTIONS ≤ s2.followup_count then
        (Session._check_termination_or_recluster env s2, none)
      else if files.length ≤ 3 then
        (Session._check_termination_or_recluster env s2, none)
      else (Session._generate_followup env s2, none)

/-- `Session.backtrack`. -/
def Session.backtrack (env : Env) (s : Session) (target_node_id : String) :
    Session × Option String :=
  match s.nav_tree.find? (fun e => e.nodeId = target_node_id) with
  | none => (s, some ("Node " ++ target_node_id ++ " not found in nav tree"))
  | some target =>
    let tr := target.round
    match getA tr s.snapshots with
    | none => (s, some ("No snapshot for round " ++ toString tr))
    | some snap =>
      let tree1 := (s.nav_tree.filter (fun e => e.round ≤ tr)).map (fun e =>
        if e.round = tr ∧ e.parentNodeId = target.parentNodeId then
          { e with isOnPath := e.nodeId = target_node_id }
        else e)
      let s1 := { s with
        points := snap.1, conversation := snap.2.1, followup_count := snap.2.2,
        found_file := none, pending_question := none,
        nav_tree := tree1,
        current_nav_node := some target_node_id,
        snapshots := s.snapshots.filter (fun p => p.1 ≤ tr) }
      match target.clusterId with
      | some cid =>
        let s2 := { s1 with round := tr - 1 }
        let labels := cluster_vectors env (s2.points.map (fun pt => pt.vector))
        let pts := (s2.points.zip labels).filterMap
          (fun pl => if pl.2 = cid then some pl.1 else none)
        let s3 := { s2 with labels := some labels, points := pts }
        (Session._check_termination_or_recluster env s3, none)
      | none =>
        (Session.do_cluster env { s1 with round := 0 }, none)

/-! ## `api.py` – serialisation (`Session.to_dict`) -/

/-- One entry of the `clusters` field of a serialised session. -/
structure ClusterView where
  id : Int
  label : String
  files : List String
  size : Nat
deriving Repr, DecidableEq

/-- The serialised session shape returned by every endpoint.  Optional fields
model the status-dependent keys of the Python dict, present only in the
matching status; `pending_question` is doubly optional because the key holds
a nullable value. -/
structure SessionView where
  session_id : String
  status : Status
  round : Int
  query : String
  expanded_query : String
  total_chunks : Nat
  files : List String
  file_scores : List (String × Rat)
  clusters : Option (List ClusterView)
  pending_question : Option (Option String)
  followup_count : Option Nat
  max_followups : Option Nat
  found_file : Option (Option String)
  remaining_files : Option (List String)
  conversation : List QA
  nav_tree : List NavNode
  current_nav_node : Option String
deriving Repr, DecidableEq

/-- `Session.to_dict`. -/
def Session.to_dict (s : Session) : SessionView :=
  { session_id := s.id
    status := s.status
    round := s.round
    query := s.query
    expanded_query := s.expanded_query
    total_chunks := s.points.length
    files := s.unique_files
    file_scores := s.file_scores
    clusters :=
      if s.status = .clusters then
        some ((sortAsc (s.cluster_labels.map (fun e => e.1))).map (fun cid =>
          { id := cid,
            label := (getA cid s.cluster_labels).getD ("Cluster " ++ toString cid),
            files := (getA cid s.cluster_files).getD [],
            size := (getA cid s.cluster_sizes).getD 0 }))
      else none
    pending_question := if s.status = .followup then some s.pending_question else none
    followup_count := if s.status = .followup then some s.followup_count else none
    max_followups := if s.status = .followup then some MAX_FOLLOWUP_QUESTIONS else none
    found_file := if s.status = .found then some s.found_file else none
    remaining_files := if s.status = .exhausted then some s.unique_files else none
    conversation := s.conversation
    nav_tree := s.nav_tree
    current_nav_node := s.current_nav_node }

/-! ## `api.py` – endpoints -/

/-- The fresh `Session(...)` built inside `start_search`, before the nav-tree
root is appended. -/
def Session.init (session_id query expanded : String) (hits : List Chunk) : Session :=
  { id := session_id, query := query, expanded_query := expanded,
    points := hits, labels := none, cluster_labels := [], cluster_files := [],
    cluster_sizes := [], conversation := [], pending_question := none,
    followup_count := 0, found_file := none, round := 0, status := .created,
    nav_tree := [], current_nav_node := none, snapshots := [], nav_counter := 0 }

/-- `POST /search` (`api.start_search`), parametrised by the hit list the
vector-store adapter returned for the expanded query.  `none` models the
404 on an empty hit list. -/
def start_search (env : Env) (session_id query expanded : String)
    (hits : List Chunk) : Option Session :=
  match hits with
  | [] => none
  | h :: _ =>
    let s0 := Session.init session_id query expanded hits
    let root : NavNode :=
      { nodeId := "root", label := query, depth := 0, parentNodeId := none,
        round := 0, clusterId := none, isOnPath := true }
    let s1 := { s0 with nav_tree := [root], current_nav_node := some "root" }
    if DIRECT_MATCH_THRESHOLD ≤ h.score then
      some { s1 with found_file := some h.file, status := .found }
    else
      some (Session.do_cluster env s1)

/-- A state-changing request on an existing session. -/
inductive Op where
  | pick (cluster_id : Int)
  | help
  | answer (answer : String)
  | backtrack (node_id : String)
deriving Repr, DecidableEq

/-- One state-changing HTTP request against a session, with the endpoint
guards of `api.py` (`pick_cluster`, `ask_for_help`, `answer_followup`,
`backtrack_session`).  The second component is `some message` when the
request fails (400/500); the first is the session state left behind. -/
def apiStep (env : Env) (s : Session) : Op → Session × Option String
  | .pick cid =>
    if s.status ≠ .clusters then
      (s, some "Session is not in clusters state")
    else if (getA cid s.cluster_labels).isNone then
      (s, some "Invalid cluster_id")
    else Session.pick_cluster env s cid
  | .help =>
    if s.status ≠ .clusters ∧ s.status ≠ .followup then
      (s, some "Cannot ask for help in this state")
    else if MAX_FOLLOWUP_QUESTIONS ≤ s.followup_count then
      (s, some "Maximum follow-up questions reached")
    else (Session.start_followup env s, none)
  | .answer a =>
    if s.status ≠ .followup then (s, some "No pending question")
    else Session.answer_followup env s a
  | .backtrack nid => Session.backtrack env s nid

/-- Run a sequence of requests, each with its own oracle environment
(oracle answers differ call to call); failed requests leave behind whatever
state the Python exception left. -/
def runOps (s : Session) : List (Env × Op) → Session
  | [] => s
  | eo :: rest => runOps (apiStep eo.1 s eo.2).1 rest

/-! ## Specification-side predicates -/

/-- Number of distinct non-noise labels in a labelling. -/
def countNonNoise (out : List Int) : Nat :=
  ((out.filter (fun l => 0 ≤ l)).dedup).length

/-- The output contract of `hdbscan.HDBSCAN().fit_predict` (documented by the
hdbscan library): every label is −1 (noise) or one of the densely numbered
cluster ids `0 .. m-1`, and every id in that range occurs. -/
def DenseRaw (raw : List Int) (m : Nat) : Prop :=
  (∀ l ∈ raw, l = -1 ∨ (0 ≤ l ∧ l < (m : Int))) ∧
  (∀ j : Nat, j < m → ((j : Nat) : Int) ∈ raw)

/-- The density clusterer honours its length contract and finds at least one
non-noise cluster on every non-empty input (i.e. clustering never degenerates
to all-noise). -/
def GoodClusterer (env : Env) : Prop :=
  ∀ vs : List Vec, (cluster_vectors env vs).length = vs.length ∧
    (vs ≠ [] → ∃ l ∈ cluster_vectors env vs, 0 ≤ l)

/-- The post-state contract of the termination evaluator: a pool with exactly
one unique file means `found` with that file recorded; otherwise a pool of
fewer than 3 chunks means `exhausted` with the remaining files exposed in the
serialised response. -/
def TermPost (s : Session) : Prop :=
  (s.unique_files.length = 1 →
    s.status = .found ∧ ∃ f, s.unique_files = [f] ∧ s.found_file = some f) ∧
  (s.unique_files.length ≠ 1 → s.points.length < 3 →
    s.status = .exhausted ∧ s.to_dict.remaining_files = some s.unique_files)

/-- Whether a request is a narrowing operation (a pick or an answer). -/
def Op.isNarrow : Op → Bool
  | .pick _ => true
  | .answer _ => true
  | _ => false

/-- Session invariant used for the follow-up counter: the counter is within
the cap, a session sitting in follow-up mode has asked at most 2 questions,
and every snapshot stores a counter within the cap and a non-empty pool. -/
def CountInv (s : Session) : Prop :=
  s.followup_count ≤ MAX_FOLLOWUP_QUESTIONS ∧
  (s.status = .followup → s.followup_count ≤ 2) ∧
  (∀ p ∈ s.snapshots, p.2.2.2 ≤ MAX_FOLLOWUP_QUESTIONS ∧ p.2.1 ≠ [])

/-! ## Concrete fixtures (used by counterexamples and witnesses) -/

/-- A chunk with opaque vector handle `i` and id `i`. -/
def mkChunk (i : Nat) (f : String) (sc : Rat) : Chunk :=
  { id := i, vector := i, chunk := "t" ++ toString i, file := f,
    chunk_type := "content", score := sc }

/-- An environment whose density clusterer splits the 8-vector pool in two,
then splits the surviving 4-vector pool in two again; the LLM always fails
(fallback labels and questions), the embedder succeeds. -/
def envC2 : Env :=
  { hdbscan := fun vs =>
      if vs = [0, 1, 2, 3, 4, 5, 6, 7] then [0, 0, 0, 0, 1, 1, 1, 1]
      else if vs = [0, 1, 2, 3] then [0, 0, 1, 1]
      else vs.map (fun _ => -1),
    labelLLM := fun _ _ => none,
    followupLLM := fun _ _ _ => none,
    encode := fun _ => some 0,
    sim := fun _ _ => 0 }

/-- 8 chunks over 4 files, no direct match. -/
def hits8 : List Chunk :=
  [mkChunk 0 "a.pdf" (mkRat 1 2), mkChunk 1 "a.pdf" (mkRat 1 2), mkChunk 2 "b.pdf" (mkRat 1 2),
   mkChunk 3 "b.pdf" (mkRat 1 2), mkChunk 4 "c.pdf" (mkRat 1 2), mkChunk 5 "c.pdf" (mkRat 1 2),
   mkChunk 6 "d.pdf" (mkRat 1 2), mkChunk 7 "d.pdf" (mkRat 1 2)]

/-- The session created by `POST /search` on `hits8`. -/
def sA : Session :=
  (start_search envC2 "s1" "q" "xq" hits8).getD (Session.init "" "" "" [])

/-- `sA` after picking cluster 0 at round 1. -/
def sB : Session := (apiStep envC2 sA (.pick 0)).1

/-- `sB` after picking cluster 0 at round 2. -/
def sC : Session := (apiStep envC2 sB (.pick 0)).1

/-- An environment whose density clusterer always returns all-noise;
LLM always fails, embedder succeeds. -/
def envN : Env :=
  { hdbscan := fun vs => vs.map (fun _ => -1),
    labelLLM := fun _ _ => none,
    followupLLM := fun _ _ _ => none,
    encode := fun _ => some 0,
    sim := fun _ _ => 0 }

/-- 3 chunks over 2 files, no direct match. -/
def hits3 : List Chunk :=
  [mkChunk 0 "a.pdf" (mkRat 1 2), mkChunk 1 "a.pdf" (mkRat 1 2), mkChunk 2 "b.pdf" (mkRat 1 2)]

/-- 2 chunks over 2 files, with a direct match on top. -/
def hits2 : List Chunk := [mkChunk 0 "a.pdf" (mkRat 9 10), mkChunk 1 "b.pdf" (mkRat 1 2)]

/-- 4 chunks over 4 files. -/
def pts4 : List Chunk :=
  [mkChunk 0 "a.pdf" (mkRat 1 2), mkChunk 1 "b.pdf" (mkRat 1 2), mkChunk 2 "c.pdf" (mkRat 1 2),
   mkChunk 3 "d.pdf" (mkRat 1 2)]

/-- The session created by `POST /search` on `hits3` under `envN`: clustering
finds no clusters, so it starts in follow-up mode with a pending question. -/
def t0 : Session :=
  (start_search envN "s1" "q" "xq" hits3).getD (Session.init "" "" "" [])

/-- Four follow-up answers in a row. -/
def c3trace : List (Env × Op) :=
  [(envN, .answer "w"), (envN, .answer "x"), (envN, .answer "y"), (envN, .answer "z")]

/-- An environment whose dense embedder raises. -/
def envFail : Env :=
  { hdbscan := fun vs => vs.map (fun _ => -1),
    labelLLM := fun _ _ => none,
    followupLLM := fun _ _ _ => none,
    encode := fun _ => none,
    sim := fun _ _ => 0 }

/-- A follow-up-mode session with a pending question. -/
def sF : Session :=
  { Session.init "s1" "q" "xq" hits3 with
    status := .followup, pending_question := some "Q1" }

/-- An environment whose density clusterer puts every point into cluster 0:
a well-behaved clusterer that never degenerates to all-noise. -/
def envG : Env :=
  { hdbscan := fun vs => vs.map (fun _ => 0),
    labelLLM := fun _ _ => none,
    followupLLM := fun _ _ _ => none,
    encode := fun _ => some 0,
    sim := fun _ _ => 0 }

/-- The session created by `POST /search` on `hits3` under `envG`. -/
def sG : Session :=
  (start_search envG "s1" "q" "xq" hits3).getD (Session.init "" "" "" [])

/-- An environment whose density clusterer returns a fixed labelling with
5 dense clusters (counts 3,2,2,2,3), used to exercise the cap. -/
def envC7 : Env :=
  { hdbscan := fun _ => [0, 0, 0, 1, 1, 2, 2, 3, 3, 4, 4, 4],
    labelLLM := fun _ _ => none,
    followupLLM := fun _ _ _ => none,
    encode := fun _ => some 0,
    sim := fun _ _ => 0 }

/-! # Helper lemmas -/

theorem generate_followup_spec (env : Env) (s : Session) :
    Session._generate_followup env s =
      { s with
        pending_question := some (_ask_followup_question env
          (_build_file_summaries s.points) s.conversation (s.followup_count + 1)),
        status := .followup } := rfl

theorem do_cluster_frame (env : Env) (s : Session) :
    (Session.do_cluster env s).points = s.points ∧
    (Session.do_cluster env s).conversation = s.conversation ∧
    (Session.do_cluster env s).followup_count = s.followup_count ∧
    (Session.do_cluster env s).found_file = s.found_file ∧
    (Session.do_cluster env s).round = s.round + 1 ∧
    (Session.do_cluster env s).snapshots =
      setA (s.round + 1) (s.points, s.conversation, s.followup_count) s.snapshots := by
  simp only [Session.do_cluster]
  split <;> exact ⟨rfl, rfl, rfl, rfl, rfl, rfl⟩

theorem do_cluster_status (env : Env) (s : Session) :
    (Session.do_cluster env s).status = .clusters ∨
    ((Session.do_cluster env s).status = .followup ∧
      (Session.do_cluster env s).pending_question.isSome) := by
  simp only [Session.do_cluster]
  split
  · exact Or.inr ⟨rfl, rfl⟩
  · exact Or.inl rfl

theorem check_term_spec (env : Env) (s : Session) :
    (s.unique_files.length = 1 ∧
      Session._check_termination_or_recluster env s =
        { s with found_file := s.unique_files.head?, status := .found }) ∨
    (s.unique_files.length ≠ 1 ∧ s.points.length < 3 ∧
      Session._check_termination_or_recluster env s = { s with status := .exhausted }) ∨
    (s.unique_files.length ≠ 1 ∧ ¬ s.points.length < 3 ∧
      Session._check_termination_or_recluster env s = Session.do_cluster env s) := by
  simp only [Session._check_termination_or_recluster]
  split
  · next h => exact Or.inl ⟨h, rfl⟩
  · next h =>
    split
    · next h2 => exact Or.inr (Or.inl ⟨h, h2, rfl⟩)
    · next h2 => exact Or.inr (Or.inr ⟨h, h2, rfl⟩)

theorem unique_files_eq_of_points_eq {s1 s2 : Session} (h : s1.points = s2.points) :
    s1.unique_files = s2.unique_files := by
  unfold Session.unique_files
  rw [h]

theorem unique_files_length_le (s : Session) :
    s.unique_files.length ≤ s.points.length := by
  unfold Session.unique_files sortStr
  rw [List.length_insertionSort]
  exact le_trans (List.Sublist.length_le (List.dedup_sublist _))
    (le_of_eq (List.length_map _ _))

theorem head_isSome_of_length_one {α : Type} {l : List α} (h : l.length = 1) :
    ∃ a, l = [a] := by
  cases l with
  | nil => exact absurd h (by simp)
  | cons a t =>
    cases t with
    | nil => exact ⟨a, rfl⟩
    | cons b t2 => exact absurd h (by simp)

theorem to_dict_remaining_files {s : Session} (h : s.status = .exhausted) :
    s.to_dict.remaining_files = some s.unique_files := by
  simp [Session.to_dict, h]

theorem check_term_points (env : Env) (s : Session) :
    (Session._check_termination_or_recluster env s).points = s.points := by
  rcases check_term_spec env s with ⟨_, h⟩ | ⟨_, _, h⟩ | ⟨_, _, h⟩ <;> rw [h]
  exact (do_cluster_frame env s).1

/-- C10's invariant shape: a session sitting in follow-up mode has a pending
question. -/
theorem check_term_followup_pending (env : Env) (s : Session) :
    (Session._check_termination_or_recluster env s).status = .followup →
    (Session._check_termination_or_recluster env s).pending_question.isSome := by
  rcases check_term_spec env s with ⟨_, h⟩ | ⟨_, _, h⟩ | ⟨_, _, h⟩ <;> rw [h]
  · intro hc; exact absurd hc (by simp)
  · intro hc; exact absurd hc (by simp)
  · intro hc
    rcases do_cluster_status env s with hcl | ⟨_, hp⟩
    · rw [hcl] at hc; exact absurd hc (by simp)
    · exact hp

/-! # Claims -/

/-- C8: a `start(query)` whose retrieval returns non-empty hits with the top
hit's fused score ≥ `DIRECT_MATCH_THRESHOLD = 0.85` creates a session with
status `found`, `found_file` equal to the top hit's file, `round = 0`, and no
clustering performed: no cluster labels and no snapshots exist. -/
theorem c8_direct_match (env : Env) (sid q exq : String) (h : Chunk)
    (t : List Chunk) (hs : DIRECT_MATCH_THRESHOLD ≤ h.score) :
    ∃ s, start_search env sid q exq (h :: t) = some s ∧ s.status = .found ∧
      s.found_file = some h.file ∧ s.round = 0 ∧ s.labels = none ∧
      s.snapshots = [] ∧ s.cluster_labels = [] := by
  simp only [start_search]
  rw [if_pos hs]
  exact ⟨_, rfl, rfl, rfl, rfl, rfl, rfl, rfl⟩

/-- Witness for C8 at a concrete direct-match input. -/
theorem c8_direct_match_witness :
    DIRECT_MATCH_THRESHOLD ≤ (mkChunk 0 "a.pdf" (mkRat 9 10)).score ∧
    ∃ s, start_search envN "s1" "q" "xq"
        (mkChunk 0 "a.pdf" (mkRat 9 10) :: [mkChunk 1 "b.pdf" (mkRat 1 2)]) = some s ∧
      s.status = .found ∧ s.found_file = some (mkChunk 0 "a.pdf" (mkRat 9 10)).file ∧
      s.round = 0 ∧ s.labels = none ∧ s.snapshots = [] ∧ s.cluster_labels = [] :=
  ⟨by decide,
   c8_direct_match envN "s1" "q" "xq" (mkChunk 0 "a.pdf" (mkRat 9 10))
     [mkChunk 1 "b.pdf" (mkRat 1 2)] (by decide)⟩

/-- C4 counterexample: on a pool of `N = 4` chunks the follow-up filter
retains all 4 chunks, while the claimed formula `max(⌈N/2⌉, min(3, N))`
evaluates to 3. -/
theorem c4_counterexample :
    (_filter_by_followup envN pts4 [⟨"q", "a"⟩]).map List.length =
      some pts4.length
    ∧ pts4.length = 4
    ∧ max ((pts4.length + 1) / 2) (min 3 pts4.length) = 3 := by decide

/-- C4 (amended): on a pool of `N` chunks the follow-up filter, when the
embedding call succeeds, retains `N` chunks when `⌊N/2⌋ < 3` (i.e. `N ≤ 5`)
and `⌊N/2⌋` chunks otherwise; in particular it never emits a pool smaller
than 3 unless the input itself is smaller than 3. -/
theorem c4_filter_retention_length (env : Env) (pts : List Chunk)
    (conv : List QA) (out : List Chunk)
    (hf : _filter_by_followup env pts conv = some out) :
    (out.length = if pts.length / 2 < 3 then pts.length else pts.length / 2)
    ∧ min 3 pts.length ≤ out.length := by
  simp only [_filter_by_followup] at hf
  split at hf
  · exact Option.noConfusion hf
  · next cv henc =>
    split at hf <;>
      rw [Option.some.injEq] at hf <;>
      subst hf <;>
      rename_i hcond <;>
      rw [List.length_map, List.length_take, List.length_insertionSort,
          List.length_map] at hcond <;>
      rw [List.length_map, List.length_take, List.length_insertionSort,
          List.length_map] <;>
      constructor <;>
      first
        | (split <;> omega)
        | omega

/-- Witness for C4's amended retention law at a concrete input. -/
theorem c4_filter_retention_length_witness :
    (pts4.length = if pts4.length / 2 < 3 then pts4.length else pts4.length / 2)
    ∧ min 3 pts4.length ≤ pts4.length :=
  c4_filter_retention_length envN pts4 [⟨"q", "a"⟩] pts4 (by decide)

/-- C5 counterexample: an `answer` whose dense-embedding call fails raises,
yet leaves the session mutated (the Q/A pair was appended and the pending
question cleared), so failing operations are not atomic on their session. -/
theorem c5_counterexample :
    (Session.answer_followup envFail sF "ans").2.isSome = true
    ∧ (Session.answer_followup envFail sF "ans").1 ≠ sF := by decide

/-- C5 (amended): a `backtrack` that fails (unknown node, or no snapshot for
the target round) leaves the session unchanged, and an `answer` with no
pending question fails without mutating state; but an `answer` whose
dense-embedding call fails leaves the session mutated: the new Q/A pair is
appended to the conversation and the pending question is cleared (all other
fields unchanged). -/
theorem c5_failure_atomicity (env : Env) (s : Session) (nid a q : String) :
    ((Session.backtrack env s nid).2.isSome → (Session.backtrack env s nid).1 = s)
    ∧ (s.pending_question = none →
        Session.answer_followup env s a = (s, some "No pending question"))
    ∧ (s.pending_question = some q →
        _filter_by_followup env s.points (s.conversation ++ [⟨q, a⟩]) = none →
        (Session.answer_followup env s a).1 =
          { s with conversation := s.conversation ++ [⟨q, a⟩],
                   pending_question := none }
        ∧ (Session.answer_followup env s a).2.isSome) := by
  refine ⟨?_, ?_, ?_⟩
  · simp only [Session.backtrack]
    split
    · intro _; rfl
    · split
      · intro _; rfl
      · split <;> (intro hmm; simp at hmm)
  · intro hp
    simp only [Session.answer_followup, hp]
  · intro hp hfail
    simp only [Session.answer_followup, hp]
    rw [hfail]
    exact ⟨rfl, rfl⟩

/-- Witness for C5's amended atomicity statement at a concrete input. -/
theorem c5_failure_atomicity_witness :
    (Session.answer_followup envFail sF "ans").1 =
      { sF with conversation := sF.conversation ++ [⟨"Q1", "ans"⟩], pending_question := none }
    ∧ (Session.answer_followup envFail sF "ans").2.isSome :=
  (c5_failure_atomicity envFail sF "n0" "ans" "Q1").2.2 rfl (by decide)

/-- C10: whenever a session operation completes without raising, a session
left in status `followup` has a pending question: every transition into
`followup` first synthesizes a question, and `_ask_followup_question` falls
back to a fixed generic question when the LLM fails. -/
theorem c10_followup_has_pending :
    (∀ (env : Env) (sid q exq : String) (hits : List Chunk) (s : Session),
      start_search env sid q exq hits = some s →
      s.status = .followup → s.pending_question.isSome)
    ∧ (∀ (e : Env) (s : Session) (op : Op),
      (apiStep e s op).2 = none →
      (apiStep e s op).1.status = .followup →
      (apiStep e s op).1.pending_question.isSome) := by
  constructor
  · intro env sid q exq hits s hstart
    cases hits with
    | nil => exact absurd hstart (by simp [start_search])
    | cons h t =>
      simp only [start_search] at hstart
      split at hstart <;> rw [Option.some.injEq] at hstart <;> subst hstart
      · intro hst; exact absurd hst (by simp)
      · intro hst
        rcases do_cluster_status env _ with hcl | ⟨_, hp⟩
        · rw [hcl] at hst; exact absurd hst (by simp)
        · exact hp
  · intro e s op
    cases op with
    | pick cid =>
      simp only [apiStep, Session.pick_cluster]
      split
      · intro h; exact absurd h (by simp)
      · split
        · intro h; exact absurd h (by simp)
        · split
          · intro h; exact absurd h (by simp)
          · intro _; exact check_term_followup_pending e _
    | help =>
      simp only [apiStep, Session.start_followup]
      split
      · intro h; exact absurd h (by simp)
      · split
        · intro h; exact absurd h (by simp)
        · intro _ _; simp [generate_followup_spec]
    | answer a =>
      simp only [apiStep, Session.answer_followup]
      split
      · intro h; exact absurd h (by simp)
      · split
        · intro h; exact absurd h (by simp)
        · split
          · intro h; exact absurd h (by simp)
          · split
            · intro _ hst; exact absurd hst (by simp)
            · split
              · intro _; exact check_term_followup_pending e _
              · split
                · intro _; exact check_term_followup_pending e _
                · intro _ _; simp [generate_followup_spec]
    | backtrack nid =>
      simp only [apiStep, Session.backtrack]
      split
      · intro h; exact absurd h (by simp)
      · split
        · intro h; exact absurd h (by simp)
        · split
          · intro _; exact check_term_followup_pending e _
          · intro _ hst
            rcases do_cluster_status e _ with hcl | ⟨_, hp⟩
            · rw [hcl] at hst; exact absurd hst (by simp)
            · exact hp

/-- Witness for C10: a concrete successful `answer` on a follow-up session
whose result is again in follow-up mode with a pending question. -/
theorem c10_followup_has_pending_witness :
    (apiStep envN t0 (Op.answer "w")).2 = none ∧
    ((apiStep envN t0 (Op.answer "w")).1.status = .followup →
      (apiStep envN t0 (Op.answer "w")).1.pending_question.isSome) :=
  ⟨by decide, c10_followup_has_pending.2 envN t0 (Op.answer "w") (by decide)⟩

/-- The termination evaluator always leaves a state satisfying `TermPost`. -/
theorem term_post_check_term (env : Env) (s : Session) :
    TermPost (Session._check_termination_or_recluster env s) := by
  rcases check_term_spec env s with ⟨h1, heq⟩ | ⟨h1, h2, heq⟩ | ⟨h1, h2, heq⟩ <;> rw [heq]
  · obtain ⟨f, hf⟩ := head_isSome_of_length_one h1
    constructor
    · intro _
      refine ⟨rfl, f, hf, ?_⟩
      show s.unique_files.head? = some f
      rw [hf]; rfl
    · intro hne _
      exact absurd h1 hne
  · constructor
    · intro h1'
      exact absurd h1' h1
    · intro _ _
      exact ⟨rfl, to_dict_remaining_files rfl⟩
  · constructor
    · intro h1'
      have he : (Session.do_cluster env s).unique_files = s.unique_files :=
        unique_files_eq_of_points_eq (do_cluster_frame env s).1
      rw [he] at h1'
      exact absurd h1' h1
    · intro _ hN
      have hp : (Session.do_cluster env s).points = s.points := (do_cluster_frame env s).1
      rw [hp] at hN
      exact absurd hN h2

/-- C6: after every narrowing operation (a pick or an answer) that completes,
letting F be the number of unique files in the pool and N the pool size:
if F = 1 the status becomes `found` with `found_file` recorded as that single
file; otherwise if N < 3 the status becomes `exhausted` and the serialised
response exposes the remaining files — and the evaluation happens in that
order (F = 1 wins over N < 3). -/
theorem c6_termination_order (e : Env) (s : Session) (cid : Int) (a : String) :
    ((apiStep e s (Op.pick cid)).2 = none → TermPost (apiStep e s (Op.pick cid)).1)
    ∧ ((apiStep e s (Op.answer a)).2 = none → TermPost (apiStep e s (Op.answer a)).1) := by
  constructor
  · simp only [apiStep, Session.pick_cluster]
    split
    · intro h; exact absurd h (by simp)
    · split
      · intro h; exact absurd h (by simp)
      · split
        · intro h; exact absurd h (by simp)
        · intro _; exact term_post_check_term e _
  · simp only [apiStep, Session.answer_followup]
    split
    · intro h; exact absurd h (by simp)
    · split
      · intro h; exact absurd h (by simp)
      · next q hq =>
        split
        · intro h; exact absurd h (by simp)
        · next pts hpts =>
          split
          · next h1 =>
            intro _
            obtain ⟨f, hf⟩ := head_isSome_of_length_one h1
            constructor
            · intro _
              refine ⟨rfl, f, hf, ?_⟩
              rw [hf]
              rfl
            · intro hne _
              exact absurd h1 hne
          · next hne1 =>
            split
            · intro _; exact term_post_check_term e _
            · next hcnt =>
              split
              · intro _; exact term_post_check_term e _
              · next hgt3 =>
                intro _
                constructor
                · intro h1'
                  exact absurd h1' hne1
                · intro _ hN
                  have hN2 : pts.length < 3 := hN
                  have hle : ({ s with
                      conversation := s.conversation ++ [⟨q, a⟩],
                      pending_question := none, points := pts,
                      followup_count := s.followup_count + 1 } : Session).unique_files.length
                      ≤ pts.length :=
                    unique_files_length_le _
                  omega

/-- Witness for C6: a concrete successful pick whose post-state satisfies
the termination contract. -/
theorem c6_termination_order_witness :
    (apiStep envC2 sB (Op.pick 0)).2 = none ∧
    TermPost (apiStep envC2 sB (Op.pick 0)).1 :=
  ⟨by decide, (c6_termination_order envC2 sB 0 "a").1 (by decide)⟩

/-- The follow-up filter returns a sub-pool of its input: no longer, and
made only of input chunks. -/
theorem filter_by_followup_subset (e : Env) (pts : List Chunk) (conv : List QA)
    (out : List Chunk) (hf : _filter_by_followup e pts conv = some out) :
    out.length ≤ pts.length ∧ ∀ x ∈ out, x ∈ pts := by
  simp only [_filter_by_followup] at hf
  split at hf
  · exact Option.noConfusion hf
  · next cv henc =>
    have hsub : ∀ (k : Nat),
        ∀ x ∈ List.map (fun sp => sp.2) (List.take k
          (List.insertionSort (fun x y : Rat × Chunk => y.1 ≤ x.1)
            (pts.map (fun pt => (e.sim cv pt.vector, pt))))), x ∈ pts := by
      intro k x hx
      rw [List.mem_map] at hx
      obtain ⟨p, hp, hpx⟩ := hx
      have hp2 : p ∈ List.insertionSort (fun x y : Rat × Chunk => y.1 ≤ x.1)
          (pts.map (fun pt => (e.sim cv pt.vector, pt))) := List.mem_of_mem_take hp
      rw [(List.perm_insertionSort _ _).mem_iff, List.mem_map] at hp2
      obtain ⟨pt, hpt, hppt⟩ := hp2
      subst hppt
      rw [← hpx]
      exact hpt
    split at hf <;> rw [Option.some.injEq] at hf <;> subst hf <;>
      refine ⟨?_, hsub _⟩ <;>
      simp only [List.length_map, List.length_take, List.length_insertionSort] <;>
      omega

/-- `pick_cluster` makes the pool exactly the chunks of the chosen cluster. -/
theorem pick_cluster_narrows (e : Env) (s : Session) (cid : Int) (L : List Int)
    (hL : s.labels = some L) :
    (Session.pick_cluster e s cid).1.points =
      (s.points.zip L).filterMap
        (fun pl => if pl.2 = cid then some pl.1 else none) := by
  simp only [Session.pick_cluster, hL]
  split <;> exact check_term_points e _

/-- One successful or failed narrowing request never grows the pool. -/
theorem apiStep_narrow_length (e : Env) (s : Session) (op : Op)
    (hop : op.isNarrow = true) :
    (apiStep e s op).1.points.length ≤ s.points.length := by
  cases op with
  | help => exact absurd hop (by simp [Op.isNarrow])
  | backtrack nid => exact absurd hop (by simp [Op.isNarrow])
  | pick cid =>
    simp only [apiStep]
    split
    · exact le_refl _
    · split
      · exact le_refl _
      · simp only [Session.pick_cluster]
        split
        · exact le_refl _
        · split <;>
            exact le_trans (le_of_eq (congrArg List.length (check_term_points e _)))
              (le_trans (List.length_filterMap_le _ _)
                (le_trans (le_of_eq (List.length_zip _ _)) (min_le_left _ _)))
  | answer a =>
    simp only [apiStep, Session.answer_followup]
    split
    · exact le_refl _
    · split
      · exact le_refl _
      · next q hq =>
        split
        · exact le_refl _
        · next pts hpts =>
          have hlen : pts.length ≤ s.points.length :=
            (filter_by_followup_subset e s.points _ pts hpts).1
          split
          · exact hlen
          · split
            · exact le_trans
                (le_of_eq (congrArg List.length (check_term_points e _))) hlen
            · split
              · exact le_trans
                  (le_of_eq (congrArg List.length (check_term_points e _))) hlen
              · exact hlen

/-- Pool length is monotone along any run of narrowing requests. -/
theorem runOps_narrow_length (trace : List (Env × Op)) :
    ∀ (s : Session), (∀ p ∈ trace, p.2.isNarrow = true) →
      (runOps s trace).points.length ≤ s.points.length := by
  induction trace with
  | nil => intro s _; exact le_refl _
  | cons eo rest ih =>
    intro s hall
    have h1 := apiStep_narrow_length eo.1 s eo.2 (hall eo (by simp))
    have h2 := ih (apiStep eo.1 s eo.2).1 (fun p hp => hall p (by simp [hp]))
    simp only [runOps]
    exact le_trans h2 h1

/-- C9: along any uninterrupted sequence of picks and answers the pool size
is monotonically non-increasing; a pick retains exactly the chunks carrying
the chosen cluster label (a subset of the pool by position), and the
follow-up filter applied by an answer returns a subset of its input pool. -/
theorem c9_pool_monotone :
    (∀ (s : Session) (trace : List (Env × Op)),
      (∀ p ∈ trace, p.2.isNarrow = true) →
      (runOps s trace).points.length ≤ s.points.length)
    ∧ (∀ (e : Env) (s : Session) (cid : Int) (L : List Int), s.labels = some L →
        (∀ pt ∈ (Session.pick_cluster e s cid).1.points,
          ∃ i : Nat, s.points.get? i = some pt ∧ L.get? i = some cid)
        ∧ (∀ (i : Nat) (pt : Chunk), s.points.get? i = some pt →
            L.get? i = some cid → pt ∈ (Session.pick_cluster e s cid).1.points)
        ∧ (Session.pick_cluster e s cid).1.points.length ≤ s.points.length)
    ∧ (∀ (e : Env) (pts : List Chunk) (conv : List QA) (out : List Chunk),
        _filter_by_followup e pts conv = some out →
        out.length ≤ pts.length ∧ ∀ x ∈ out, x ∈ pts) := by
  refine ⟨fun s trace h => runOps_narrow_length trace s h, ?_,
    filter_by_followup_subset⟩
  intro e s cid L hL
  have hnar := pick_cluster_narrows e s cid L hL
  refine ⟨?_, ?_, ?_⟩
  · intro pt hpt
    rw [hnar, List.mem_filterMap] at hpt
    obtain ⟨pl, hpl, hfl⟩ := hpt
    by_cases hc : pl.2 = cid
    · rw [if_pos hc, Option.some.injEq] at hfl
      obtain ⟨i, hi⟩ := List.mem_iff_get?.mp hpl
      rw [List.get?_zip_eq_some] at hi
      exact ⟨i, by rw [hi.1, hfl], by rw [hi.2, hc]⟩
    · rw [if_neg hc] at hfl
      exact Option.noConfusion hfl
  · intro i pt hpt hlab
    rw [hnar, List.mem_filterMap]
    refine ⟨(pt, cid), ?_, if_pos rfl⟩
    apply List.get?_mem (n := i)
    rw [List.get?_zip_eq_some]
    exact ⟨hpt, hlab⟩
  · rw [hnar]
    exact le_trans (List.length_filterMap_le _ _)
      (le_trans (le_of_eq (List.length_zip _ _)) (min_le_left _ _))

/-- Witness for C9 on a concrete narrowing run (one answer on `t0`). -/
theorem c9_pool_monotone_witness :
    (runOps t0 [(envN, Op.answer "w")]).points.length ≤ t0.points.length :=
  c9_pool_monotone.1 t0 [(envN, Op.answer "w")] (by decide)

/-- A session whose status is not `found` and which satisfies the
`found_file`-iff-`found` invariant has no `found_file`. -/
theorem ffnone_of_status_ne {s : Session}
    (hInv : s.found_file.isSome ↔ s.status = .found) (h : s.status ≠ .found) :
    s.found_file = none := by
  rw [← Option.not_isSome_iff_eq_none]
  intro hs
  exact h (hInv.mp hs)

theorem do_cluster_ffinv (env : Env) (s : Session) (h : s.found_file = none) :
    ((Session.do_cluster env s).found_file.isSome ↔
      (Session.do_cluster env s).status = .found) := by
  have h4 := (do_cluster_frame env s).2.2.2.1
  rcases do_cluster_status env s with hcl | ⟨hfu, _⟩
  · rw [h4, h, hcl]; simp
  · rw [h4, h, hfu]; simp

theorem check_term_ffinv (env : Env) (s : Session) (h : s.found_file = none) :
    ((Session._check_termination_or_recluster env s).found_file.isSome ↔
      (Session._check_termination_or_recluster env s).status = .found) := by
  rcases check_term_spec env s with ⟨h1, heq⟩ | ⟨h1, h2, heq⟩ | ⟨h1, h2, heq⟩ <;>
    rw [heq]
  · obtain ⟨f, hf⟩ := head_isSome_of_length_one h1
    simp [hf]
  · simp [h]
  · exact do_cluster_ffinv env s h

/-- The `found_file`-iff-`found` invariant survives every request, also the
failing ones. -/
theorem apiStep_ffinv (e : Env) (s : Session) (op : Op)
    (hInv : s.found_file.isSome ↔ s.status = .found) :
    ((apiStep e s op).1.found_file.isSome ↔
      (apiStep e s op).1.status = .found) := by
  cases op with
  | pick cid =>
    simp only [apiStep]
    split
    · exact hInv
    · next hst =>
      have hnone : s.found_file = none := by
        refine ffnone_of_status_ne hInv ?_
        rw [not_not.mp hst]
        simp
      split
      · exact hInv
      · simp only [Session.pick_cluster]
        split
        · exact hInv
        · split <;> exact check_term_ffinv e _ hnone
  | help =>
    simp only [apiStep, Session.start_followup]
    split
    · exact hInv
    · next hguard =>
      have hnone : s.found_file = none := by
        refine ffnone_of_status_ne hInv ?_
        rw [not_and_or] at hguard
        rcases hguard with h1 | h2
        · rw [not_not.mp h1]; simp
        · rw [not_not.mp h2]; simp
      split
      · exact hInv
      · simp [generate_followup_spec, hnone]
  | answer a =>
    simp only [apiStep, Session.answer_followup]
    split
    · exact hInv
    · next hguard =>
      have hnone : s.found_file = none := by
        refine ffnone_of_status_ne hInv ?_
        rw [not_not.mp hguard]
        simp
      split
      · exact hInv
      · next q hq =>
        split
        · exact hInv
        · next pts hpts =>
          split
          · next h1 =>
            obtain ⟨f, hf⟩ := head_isSome_of_length_one h1
            simp [hf]
          · split
            · exact check_term_ffinv e _ hnone
            · split
              · exact check_term_ffinv e _ hnone
              · simp [generate_followup_spec, hnone]
  | backtrack nid =>
    simp only [apiStep, Session.backtrack]
    split
    · exact hInv
    · split
      · exact hInv
      · split
        · exact check_term_ffinv e _ rfl
        · exact do_cluster_ffinv e _ rfl

theorem start_ffinv (env : Env) (sid q exq : String) (hits : List Chunk)
    (s : Session) (h : start_search env sid q exq hits = some s) :
    (s.found_file.isSome ↔ s.status = .found) := by
  cases hits with
  | nil => exact absurd h (by simp [start_search])
  | cons c t =>
    simp only [start_search] at h
    split at h <;> rw [Option.some.injEq] at h <;> subst h
    · simp
    · exact do_cluster_ffinv env _ rfl

theorem runOps_ffinv (trace : List (Env × Op)) :
    ∀ (s : Session), (s.found_file.isSome ↔ s.status = .found) →
      ((runOps s trace).found_file.isSome ↔ (runOps s trace).status = .found) := by
  induction trace with
  | nil => intro s h; exact h
  | cons eo rest ih =>
    intro s h
    simp only [runOps]
    exact ih _ (apiStep_ffinv eo.1 s eo.2 h)

/-- When the termination evaluator lands in `found`, exactly one unique file
remains and it is recorded. -/
theorem check_term_found_single (env : Env) (s : Session) :
    (Session._check_termination_or_recluster env s).status = .found →
    ∃ f, (Session._check_termination_or_recluster env s).unique_files = [f] ∧
      (Session._check_termination_or_recluster env s).found_file = some f := by
  rcases check_term_spec env s with ⟨h1, heq⟩ | ⟨h1, h2, heq⟩ | ⟨h1, h2, heq⟩ <;>
    rw [heq] <;> intro hst
  · obtain ⟨f, hf⟩ := head_isSome_of_length_one h1
    refine ⟨f, hf, ?_⟩
    show s.unique_files.head? = some f
    rw [hf]; rfl
  · exact absurd hst (by simp)
  · rcases do_cluster_status env s with hcl | ⟨hfu, _⟩
    · rw [hcl] at hst; exact absurd hst (by simp)
    · rw [hfu] at hst; exact absurd hst (by simp)

/-- C1 counterexample: a direct-match `start` on two hits from two distinct
files yields `status = found` with `found_file` set while the session's pool
contains 2 unique files, refuting `found ↔ |unique files| = 1`. -/
theorem c1_counterexample :
    (start_search envN "s1" "q" "xq" hits2).map
      (fun s => (s.status, s.found_file.isSome, s.unique_files.length)) =
      some (Status.found, true, 2) := by decide

/-- C1 (amended): for every session reachable from `start`, `found_file` is
set iff `status = found`; and after every successfully completing operation
on an existing session (pick, help, answer, backtrack) whose result is in
status `found`, the pool has exactly one unique file and `found_file` is that
file.  (A direct-match `start` sets `found` with the full retrieved pool, so
the single-file half of the original claim holds only for the narrowing
operations, not for `start`.) -/
theorem c1_found_iff :
    (∀ (env0 : Env) (sid q exq : String) (hits : List Chunk) (s0 : Session),
      start_search env0 sid q exq hits = some s0 →
      ∀ trace : List (Env × Op),
        ((runOps s0 trace).found_file.isSome ↔
          (runOps s0 trace).status = .found))
    ∧ (∀ (e : Env) (s : Session) (op : Op),
        (apiStep e s op).2 = none → (apiStep e s op).1.status = .found →
        ∃ f, (apiStep e s op).1.unique_files = [f] ∧
          (apiStep e s op).1.found_file = some f) := by
  constructor
  · intro env0 sid q exq hits s0 hstart trace
    exact runOps_ffinv trace s0 (start_ffinv env0 sid q exq hits s0 hstart)
  · intro e s op
    cases op with
    | pick cid =>
      simp only [apiStep, Session.pick_cluster]
      split
      · intro h; exact absurd h (by simp)
      · split
        · intro h; exact absurd h (by simp)
        · split
          · intro h; exact absurd h (by simp)
          · intro _; exact check_term_found_single e _
    | help =>
      simp only [apiStep, Session.start_followup]
      split
      · intro h; exact absurd h (by simp)
      · split
        · intro h; exact absurd h (by simp)
        · intro _ hst
          exact absurd hst (by simp [generate_followup_spec])
    | answer a =>
      simp only [apiStep, Session.answer_followup]
      split
      · intro h; exact absurd h (by simp)
      · split
        · intro h; exact absurd h (by simp)
        · split
          · intro h; exact absurd h (by simp)
          · split
            · next h1 =>
              intro _ _
              obtain ⟨f, hf⟩ := head_isSome_of_length_one h1
              refine ⟨f, hf, ?_⟩
              rw [hf]
              rfl
            · split
              · intro _; exact check_term_found_single e _
              · split
                · intro _; exact check_term_found_single e _
                · intro _ hst
                  exact absurd hst (by simp [generate_followup_spec])
    | backtrack nid =>
      simp only [apiStep, Session.backtrack]
      split
      · intro h; exact absurd h (by simp)
      · split
        · intro h; exact absurd h (by simp)
        · split
          · intro _; exact check_term_found_single e _
          · intro _ hst
            rcases do_cluster_status e _ with hcl | ⟨hfu, _⟩
            · rw [hcl] at hst; exact absurd hst (by simp)
            · rw [hfu] at hst; exact absurd hst (by simp)

/-- Witness for C1's amended statement: the invariant on a concrete session
reachable from `start`, and a concrete found-producing pick recording the
single remaining file. -/
theorem c1_found_iff_witness :
    ((runOps sA []).found_file.isSome ↔ (runOps sA []).status = .found)
    ∧ ∃ f, (apiStep envC2 sB (Op.pick 0)).1.unique_files = [f] ∧
        (apiStep envC2 sB (Op.pick 0)).1.found_file = some f :=
  ⟨c1_found_iff.1 envC2 "s1" "q" "xq" hits8 sA (by decide) [],
   c1_found_iff.2 envC2 sB (Op.pick 0) (by decide) (by decide)⟩

theorem appendGroup_ne_nil {κ : Type} [DecidableEq κ] (k : κ) (v : String)
    (l : List (κ × List String)) : appendGroup k v l ≠ [] := by
  cases l with
  | nil => simp [appendGroup]
  | cons e t =>
    simp only [appendGroup]
    split <;> simp

theorem mem_setA {κ β : Type} [DecidableEq κ] {k : κ} {v : β}
    {p : κ × β} : ∀ {l : List (κ × β)}, p ∈ setA k v l → p = (k, v) ∨ p ∈ l := by
  intro l
  induction l with
  | nil => intro h; simp only [setA] at h; rcases List.mem_singleton.mp h with h2; exact Or.inl h2
  | cons e t ih =>
    intro h
    simp only [setA] at h
    split at h
    · rcases List.mem_cons.mp h with h2 | h2
      · exact Or.inl h2
      · exact Or.inr (List.mem_cons_of_mem _ h2)
    · rcases List.mem_cons.mp h with h2 | h2
      · exact Or.inr (by rw [h2]; exact List.mem_cons_self _ _)
      · rcases ih h2 with h3 | h3
        · exact Or.inl h3
        · exact Or.inr (List.mem_cons_of_mem _ h3)

theorem getA_mem {κ β : Type} [DecidableEq κ] {k : κ} {v : β} :
    ∀ {l : List (κ × β)}, getA k l = some v → (k, v) ∈ l := by
  intro l
  induction l with
  | nil => intro h; exact Option.noConfusion h
  | cons e t ih =>
    intro h
    simp only [getA] at h
    split at h
    · next he =>
      rw [Option.some.injEq] at h
      subst h
      rw [← he]
      exact List.mem_cons_self _ _
    · exact List.mem_cons_of_mem _ (ih h)

/-- The grouping fold of `_aggregate_cluster_text` produces a non-empty dict
as soon as some zipped pair is non-noise (or the accumulator is non-empty). -/
theorem groups_ne_nil (ps : List (Chunk × Int)) :
    ∀ acc : List (Int × List String),
      ((∃ pl ∈ ps, pl.2 ≠ -1) ∨ acc ≠ []) →
      ps.foldl (fun acc pl =>
        if pl.2 = -1 then acc else appendGroup pl.2 pl.1.chunk acc) acc ≠ [] := by
  induction ps with
  | nil =>
    intro acc h
    rcases h with ⟨pl, hpl, _⟩ | h
    · exact absurd hpl (List.not_mem_nil pl)
    · exact h
  | cons p t ih =>
    intro acc h
    simp only [List.foldl_cons]
    apply ih
    rcases h with ⟨pl, hpl, hne⟩ | hacc
    · rcases List.mem_cons.mp hpl with h2 | h2
      · subst h2
        right
        rw [if_neg hne]
        exact appendGroup_ne_nil _ _ _
      · exact Or.inl ⟨pl, h2, hne⟩
    · right
      split
      · exact hacc
      · exact appendGroup_ne_nil _ _ _

theorem aggregate_ne_nil (points : List Chunk) (labels : List Int)
    (hlen : labels.length = points.length) (hex : ∃ l ∈ labels, 0 ≤ l) :
    _aggregate_cluster_text points labels ≠ [] := by
  obtain ⟨l, hl, hpos⟩ := hex
  obtain ⟨i, hi⟩ := List.mem_iff_get?.mp hl
  have hlt : i < labels.length := by
    by_contra hge
    rw [List.get?_eq_none.mpr (by omega)] at hi
    exact Option.noConfusion hi
  have hip : i < points.length := by omega
  have hpt : points.get? i = some (points.get ⟨i, hip⟩) := List.get?_eq_get hip
  have hz : (points.zip labels).get? i = some (points.get ⟨i, hip⟩, l) := by
    rw [List.get?_zip_eq_some]
    exact ⟨hpt, hi⟩
  have hmem : (points.get ⟨i, hip⟩, l) ∈ points.zip labels := List.get?_mem hz
  simp only [_aggregate_cluster_text]
  intro hcon
  rw [List.map_eq_nil_iff] at hcon
  refine groups_ne_nil _ [] (Or.inl ⟨(points.get ⟨i, hip⟩, l), hmem, ?_⟩) hcon
  intro hc
  have hc2 : l = -1 := hc
  omega

/-- Under a well-behaved clusterer, every clustering pass on a non-empty
pool lands in status `clusters`. -/
theorem good_do_cluster_status (env : Env) (hG : GoodClusterer env)
    (s : Session) (hne : s.points ≠ []) :
    (Session.do_cluster env s).status = .clusters := by
  simp only [Session.do_cluster]
  split
  · next hempty =>
    exfalso
    have hlen := (hG (s.points.map (fun pt => pt.vector))).1
    have hex := (hG (s.points.map (fun pt => pt.vector))).2
      (by simpa using hne)
    refine aggregate_ne_nil s.points _ ?_ hex ?_
    · rw [hlen, List.length_map]
    · rw [← List.isEmpty_iff]
      exact hempty
  · rfl

theorem do_cluster_countInv (env : Env) (hG : GoodClusterer env) (s : Session)
    (h1 : s.followup_count ≤ MAX_FOLLOWUP_QUESTIONS)
    (h3 : ∀ p ∈ s.snapshots, p.2.2.2 ≤ MAX_FOLLOWUP_QUESTIONS ∧ p.2.1 ≠ [])
    (hne : s.points ≠ []) : CountInv (Session.do_cluster env s) := by
  have hst := good_do_cluster_status env hG s hne
  have hfr := do_cluster_frame env s
  refine ⟨?_, ?_, ?_⟩
  · rw [hfr.2.2.1]; exact h1
  · intro hco
    rw [hst] at hco
    exact absurd hco (by simp)
  · intro p hp
    rw [hfr.2.2.2.2.2] at hp
    rcases mem_setA hp with h2 | h2
    · rw [h2]
      exact ⟨h1, hne⟩
    · exact h3 p h2

theorem check_term_countInv (env : Env) (hG : GoodClusterer env) (s : Session)
    (h1 : s.followup_count ≤ MAX_FOLLOWUP_QUESTIONS)
    (h3 : ∀ p ∈ s.snapshots, p.2.2.2 ≤ MAX_FOLLOWUP_QUESTIONS ∧ p.2.1 ≠ []) :
    CountInv (Session._check_termination_or_recluster env s) := by
  rcases check_term_spec env s with ⟨_, heq⟩ | ⟨_, h2, heq⟩ | ⟨_, h2, heq⟩ <;> rw [heq]
  · exact ⟨h1, fun hco => absurd hco (by simp), h3⟩
  · exact ⟨h1, fun hco => absurd hco (by simp), h3⟩
  · refine do_cluster_countInv env hG s h1 h3 ?_
    intro hc
    rw [hc] at h2
    exact h2 (by simp)

/-- `CountInv` survives every request when the request's clusterer is
well behaved. -/
theorem apiStep_countInv (e : Env) (hG : GoodClusterer e) (s : Session)
    (op : Op) (hInv : CountInv s) : CountInv (apiStep e s op).1 := by
  obtain ⟨hc1, hc2, hc3⟩ := hInv
  cases op with
  | pick cid =>
    simp only [apiStep]
    split
    · exact ⟨hc1, hc2, hc3⟩
    · split
      · exact ⟨hc1, hc2, hc3⟩
      · simp only [Session.pick_cluster]
        split
        · exact ⟨hc1, hc2, hc3⟩
        · split <;> exact check_term_countInv e hG _ hc1 hc3
  | help =>
    simp only [apiStep, Session.start_followup]
    split
    · exact ⟨hc1, hc2, hc3⟩
    · split
      · exact ⟨hc1, hc2, hc3⟩
      · next hcap =>
        have hle2 : s.followup_count ≤ 2 := by
          have h3 : ¬ MAX_FOLLOWUP_QUESTIONS ≤ s.followup_count := hcap
          simp only [MAX_FOLLOWUP_QUESTIONS] at h3
          omega
        exact ⟨le_trans hle2 (by simp [MAX_FOLLOWUP_QUESTIONS]),
          fun _ => hle2, hc3⟩
  | answer a =>
    simp only [apiStep, Session.answer_followup]
    split
    · exact ⟨hc1, hc2, hc3⟩
    · next hguard =>
      have hle2 : s.followup_count ≤ 2 := hc2 (not_not.mp hguard)
      split
      · exact ⟨hc1, hc2, hc3⟩
      · split
        · exact ⟨hc1, fun _ => hle2, hc3⟩
        · next pts hpts =>
          have hplus : s.followup_count + 1 ≤ MAX_FOLLOWUP_QUESTIONS := by
            simp only [MAX_FOLLOWUP_QUESTIONS]
            omega
          split
          · refine ⟨?_, fun hco => absurd hco (by simp), hc3⟩
            show s.followup_count + 1 ≤ MAX_FOLLOWUP_QUESTIONS
            exact hplus
          · split
            · exact check_term_countInv e hG _ hplus hc3
            · next hcap =>
              have h4 : ¬ MAX_FOLLOWUP_QUESTIONS ≤ s.followup_count + 1 := hcap
              simp only [MAX_FOLLOWUP_QUESTIONS] at h4
              split
              · exact check_term_countInv e hG _ hplus hc3
              · refine ⟨?_, fun _ => ?_, hc3⟩
                · show s.followup_count + 1 ≤ MAX_FOLLOWUP_QUESTIONS
                  exact hplus
                · show s.followup_count + 1 ≤ 2
                  omega
  | backtrack nid =>
    simp only [apiStep, Session.backtrack]
    split
    · exact ⟨hc1, hc2, hc3⟩
    · next target htarget =>
      split
      · exact ⟨hc1, hc2, hc3⟩
      · next snap hsnap =>
        have hmem := getA_mem hsnap
        obtain ⟨hsc, hsp⟩ := hc3 _ hmem
        have hfilt : ∀ p ∈ s.snapshots.filter (fun p => p.1 ≤ target.round),
            p.2.2.2 ≤ MAX_FOLLOWUP_QUESTIONS ∧ p.2.1 ≠ [] :=
          fun p hp => hc3 p (List.mem_of_mem_filter hp)
        split
        · exact check_term_countInv e hG _ hsc hfilt
        · exact do_cluster_countInv e hG _ hsc hfilt hsp

theorem start_countInv (env : Env) (hG : GoodClusterer env)
    (sid q exq : String) (hits : List Chunk) (s : Session)
    (h : start_search env sid q exq hits = some s) : CountInv s := by
  cases hits with
  | nil => exact absurd h (by simp [start_search])
  | cons c t =>
    simp only [start_search] at h
    split at h <;> rw [Option.some.injEq] at h <;> subst h
    · exact ⟨by simp [Session.init, MAX_FOLLOWUP_QUESTIONS],
        fun hco => absurd hco (by simp),
        fun p hp => absurd hp (List.not_mem_nil p)⟩
    · refine do_cluster_countInv env hG _
        (by simp [Session.init, MAX_FOLLOWUP_QUESTIONS])
        (fun p hp => absurd hp (List.not_mem_nil p)) (by simp [Session.init])

theorem runOps_countInv (trace : List (Env × Op)) :
    ∀ (s : Session), (∀ p ∈ trace, GoodClusterer p.1) → CountInv s →
      CountInv (runOps s trace) := by
  induction trace with
  | nil => intro s _ h; exact h
  | cons eo rest ih =>
    intro s hall h
    simp only [runOps]
    exact ih _ (fun p hp => hall p (by simp [hp]))
      (apiStep_countInv eo.1 (hall eo (by simp)) s eo.2 h)

/-- C3 counterexample: starting from a session whose clustering degenerates
to all-noise, four follow-up answers in a row drive `followup_count` to 4,
above `MAX_FOLLOWUP_QUESTIONS = 3`: after the third answer the re-clustering
pass finds no clusters and asks another question, which can still be
answered. -/
theorem c3_counterexample :
    start_search envN "s1" "q" "xq" hits3 = some t0
    ∧ (runOps t0 c3trace).followup_count = 4
    ∧ ¬ (runOps t0 c3trace).followup_count ≤ MAX_FOLLOWUP_QUESTIONS := by decide

/-- C3 (amended): `followup_count` starts at 0, is a natural number, and
stays within `[0, MAX_FOLLOWUP_QUESTIONS]` after every sequence of
operations provided every clustering pass is well behaved (finds at least
one non-noise cluster on every non-empty pool); without that proviso the
counter can exceed the cap through answers to questions generated after a
failed re-clustering. -/
theorem c3_followup_cap (env0 : Env) (sid q exq : String) (hits : List Chunk)
    (s0 : Session) (hG0 : GoodClusterer env0)
    (hstart : start_search env0 sid q exq hits = some s0)
    (trace : List (Env × Op)) (hG : ∀ p ∈ trace, GoodClusterer p.1) :
    (runOps s0 trace).followup_count ≤ MAX_FOLLOWUP_QUESTIONS :=
  (runOps_countInv trace s0 hG
    (start_countInv env0 hG0 sid q exq hits s0 hstart)).1

theorem list_length_le_one_of_const (l : List Int) (hnd : l.Nodup)
    (hall : ∀ x ∈ l, x = 0) : l.length ≤ 1 := by
  match l with
  | [] => simp
  | [a] => simp
  | a :: b :: t =>
    exfalso
    have ha := hall a (by simp)
    have hb := hall b (by simp)
    rw [List.nodup_cons] at hnd
    exact hnd.1 (by rw [ha, hb]; exact List.mem_cons_self _ _)

theorem envG_cluster_vectors (vs : List Vec) :
    cluster_vectors envG vs = vs.map (fun _ => 0) := by
  show capLabels (vs.map (fun _ => 0)) = vs.map (fun _ => 0)
  simp only [capLabels]
  split
  · next hlt =>
    exfalso
    have hlen : (sortAsc ((vs.map (fun _ => (0 : Int))).filter
        (fun l => 0 ≤ l)).dedup).length ≤ 1 := by
      unfold sortAsc
      rw [List.length_insertionSort]
      refine list_length_le_one_of_const _ (List.nodup_dedup _) ?_
      intro x hx
      have hx2 := (List.dedup_sublist _).subset hx
      obtain ⟨hmem, _⟩ := List.mem_filter.mp hx2
      rw [List.mem_map] at hmem
      obtain ⟨_, _, hh⟩ := hmem
      exact hh.symm
    have hM : MAX_CLUSTERS = 4 := rfl
    omega
  · rfl

theorem envG_good : GoodClusterer envG := by
  intro vs
  rw [envG_cluster_vectors]
  constructor
  · exact List.length_map _ _
  · intro hne
    cases vs with
    | nil => exact absurd rfl hne
    | cons v t => exact ⟨0, by simp, le_refl 0⟩

/-- Witness for C3's amended cap: a concrete well-behaved environment and a
concrete session started under it. -/
theorem c3_followup_cap_witness :
    (runOps sG []).followup_count ≤ MAX_FOLLOWUP_QUESTIONS :=
  c3_followup_cap envG "s1" "q" "xq" hits3 sG envG_good (by decide) []
    (fun p hp => absurd hp (List.not_mem_nil p))

theorem count_filter_of_pos (raw : List Int) (x : Int) (hx : 0 ≤ x) :
    (raw.filter (fun l => 0 ≤ l)).count x = raw.count x := by
  induction raw with
  | nil => rfl
  | cons a t ih =>
    rw [List.filter_cons]
    by_cases ha : (0 : Int) ≤ a
    · rw [if_pos (by simpa using ha), List.count_cons, List.count_cons, ih]
    · rw [if_neg (by simpa using ha), List.count_cons, ih]
      have hne : ¬ x = a := by intro h; rw [h] at hx; exact ha hx
      have hne2 : ¬ a = x := fun h => hne h.symm
      simp [hne, hne2]

/-- A duplicate-free list of integers whose members are exactly `[0, m)` has
length `m`. -/
theorem length_eq_of_mem_iff_range (l : List Int) (hnd : l.Nodup) (m : Nat)
    (hmem : ∀ x : Int, x ∈ l ↔ (0 ≤ x ∧ x < (m : Int))) : l.length = m := by
  have hperm : l.Perm (List.map (fun j : Nat => (j : Int)) (List.range m)) := by
    refine (List.perm_ext_iff_of_nodup hnd ?_).mpr ?_
    · exact List.Nodup.map (fun a b h => by exact_mod_cast h) (List.nodup_range m)
    · intro x
      rw [hmem]
      simp only [List.mem_map, List.mem_range]
      constructor
      · rintro ⟨hx0, hxm⟩
        exact ⟨x.toNat, by omega, by omega⟩
      · rintro ⟨j, hj, hjx⟩
        omega
  rw [hperm.length_eq, List.length_map, List.length_range]

/-- In a strictly sorted list, the index of an element equals the number of
smaller elements. -/
theorem indexOf_eq_length_filter_lt (L : List Int)
    (hs : List.Sorted (· < ·) L) :
    ∀ a ∈ L, L.indexOf a = (L.filter (fun x => x < a)).length := by
  induction L with
  | nil => intro a ha; cases ha
  | cons b t ih =>
    intro a ha
    rw [List.sorted_cons] at hs
    by_cases hab : b = a
    · subst hab
      rw [List.indexOf_cons_self, List.filter_cons, if_neg (by simp)]
      have hnil : t.filter (fun x => x < b) = [] := by
        rw [List.filter_eq_nil_iff]
        intro x hx
        simp only [decide_eq_true_eq]
        exact not_lt.mpr (le_of_lt (hs.1 x hx))
      simp [hnil]
    · have hat : a ∈ t := by
        rcases List.mem_cons.mp ha with h | h
        · exact absurd h.symm hab
        · exact h
      rw [List.indexOf_cons_ne _ hab, ih hs.2 a hat]
      have hba : b < a := hs.1 a hat
      rw [List.filter_cons, if_pos (by simpa using hba)]
      simp

/-- In a strictly sorted list, the `k`-th element has exactly `k` smaller
elements. -/
theorem filter_lt_get_length (L : List Int) (hs : List.Sorted (· < ·) L) :
    ∀ (k : Nat) (hk : k < L.length),
      (L.filter (fun x => x < L.get ⟨k, hk⟩)).length = k := by
  induction L with
  | nil => intro k hk; exact absurd hk (by simp)
  | cons b t ih =>
    intro k hk
    rw [List.sorted_cons] at hs
    cases k with
    | zero =>
      have hnil : t.filter (fun x => x < b) = [] := by
        rw [List.filter_eq_nil_iff]
        intro x hx
        simp only [decide_eq_true_eq]
        exact not_lt.mpr (le_of_lt (hs.1 x hx))
      show ((b :: t).filter (fun x => x < b)).length = 0
      rw [List.filter_cons, if_neg (by simp), hnil]
      rfl
    | succ j =>
      have hj : j < t.length := by
        rw [List.length_cons] at hk
        omega
      have hget : (b :: t).get ⟨j + 1, hk⟩ = t.get ⟨j, hj⟩ := rfl
      have hmem : t.get ⟨j, hj⟩ ∈ t := List.get_mem t j hj
      have hb : b < t.get ⟨j, hj⟩ := hs.1 _ hmem
      rw [hget, List.filter_cons, if_pos (by simpa using hb), List.length_cons,
        ih hs.2 j hj]

/-- The full behaviour of the `MAX_CLUSTERS` cap, under the density
clusterer's documented output contract. -/
theorem capLabels_spec (raw : List Int) (m : Nat) (hd : DenseRaw raw m) :
    (capLabels raw).length = raw.length
    ∧ countNonNoise (capLabels raw) ≤ MAX_CLUSTERS
    ∧ (∀ l ∈ capLabels raw,
        l = -1 ∨ (0 ≤ l ∧ l < (countNonNoise (capLabels raw) : Int)))
    ∧ (MAX_CLUSTERS < m →
        ∃ T : List Int, T.Nodup ∧ T.length = MAX_CLUSTERS
          ∧ (∀ t ∈ T, 0 ≤ t ∧ t < (m : Int))
          ∧ (∀ t ∈ T, ∀ u : Int, 0 ≤ u → u < (m : Int) → u ∉ T →
              (raw.count u < raw.count t ∨ (raw.count u = raw.count t ∧ t < u)))
          ∧ (∀ i : Nat, (capLabels raw).get? i = (raw.get? i).map (fun l =>
              if l ∈ T then ((T.filter (fun x => x < l)).length : Int)
              else -1))) := by
  have hM : MAX_CLUSTERS = 4 := rfl
  have hvals_mem_raw : ∀ x : Int,
      x ∈ sortAsc ((raw.filter (fun l => 0 ≤ l)).dedup) ↔ (0 ≤ x ∧ x ∈ raw) := by
    intro x
    unfold sortAsc
    rw [(List.perm_insertionSort _ _).mem_iff, List.mem_dedup, List.mem_filter]
    simp only [decide_eq_true_eq]
    exact and_comm
  have hvals_mem : ∀ x : Int,
      x ∈ sortAsc ((raw.filter (fun l => 0 ≤ l)).dedup) ↔
        (0 ≤ x ∧ x < (m : Int)) := by
    intro x
    rw [hvals_mem_raw]
    constructor
    · rintro ⟨h0, hr⟩
      rcases hd.1 x hr with h | ⟨h1, h2⟩
      · omega
      · exact ⟨h1, h2⟩
    · rintro ⟨h0, hm2⟩
      refine ⟨h0, ?_⟩
      have h2 := hd.2 x.toNat (by omega)
      rwa [show ((x.toNat : Nat) : Int) = x by omega] at h2
  have hvals_nodup : (sortAsc ((raw.filter (fun l => 0 ≤ l)).dedup)).Nodup := by
    unfold sortAsc
    exact (List.perm_insertionSort _ _).nodup_iff.mpr (List.nodup_dedup _)
  have hvals_len : (sortAsc ((raw.filter (fun l => 0 ≤ l)).dedup)).length = m :=
    length_eq_of_mem_iff_range _ hvals_nodup m hvals_mem
  have hcnt_raw : countNonNoise raw = m := by
    unfold countNonNoise
    have h1 : (sortAsc ((raw.filter (fun l => 0 ≤ l)).dedup)).length
        = ((raw.filter (fun l => 0 ≤ l)).dedup).length := by
      unfold sortAsc
      exact List.length_insertionSort _ _
    omega
  simp only [capLabels]
  split
  · next hcap =>
    set nn := raw.filter (fun l => 0 ≤ l) with hnn
    set vals := sortAsc nn.dedup with hvls
    set S := List.insertionSort (prefOrder (fun v => nn.count v)) vals with hSd
    set top := S.take MAX_CLUSTERS with htop
    set topS := sortAsc top with htopS
    rw [hvals_len] at hcap
    have hS_perm : S.Perm vals := by rw [hSd]; exact List.perm_insertionSort _ _
    have hS_len : S.length = m := by
      rw [hSd, List.length_insertionSort]; exact hvals_len
    have hS_nodup : S.Nodup := hS_perm.nodup_iff.mpr hvals_nodup
    have htop_len : top.length = MAX_CLUSTERS := by
      rw [htop, List.length_take, hS_len]; omega
    have htop_sub_vals : ∀ t ∈ top, t ∈ vals := by
      intro t ht
      rw [htop] at ht
      exact hS_perm.subset (List.take_subset _ _ ht)
    have htop_nodup : top.Nodup := by
      rw [htop]
      exact hS_nodup.sublist (List.take_sublist _ _)
    have htopS_perm : topS.Perm top := by
      rw [htopS]; unfold sortAsc; exact List.perm_insertionSort _ _
    have htopS_mem : ∀ x : Int, x ∈ topS ↔ x ∈ top := fun x => htopS_perm.mem_iff
    have htopS_nodup : topS.Nodup := htopS_perm.nodup_iff.mpr htop_nodup
    have htopS_len : topS.length = MAX_CLUSTERS := by
      rw [htopS_perm.length_eq]; exact htop_len
    have htopS_sorted_le : List.Sorted (· ≤ ·) topS := by
      rw [htopS]; unfold sortAsc; exact List.sorted_insertionSort _ _
    have htopS_sorted : List.Sorted (· < ·) topS :=
      htopS_sorted_le.lt_of_le htopS_nodup
    have htopS_bounds : ∀ t ∈ topS, 0 ≤ t ∧ t < (m : Int) := fun t ht =>
      (hvals_mem t).mp (htop_sub_vals t ((htopS_mem t).mp ht))
    have htopS_raw : ∀ t ∈ topS, t ∈ raw := fun t ht =>
      ((hvals_mem_raw t).mp (htop_sub_vals t ((htopS_mem t).mp ht))).2
    have hdom : ∀ t ∈ topS, ∀ u : Int, 0 ≤ u → u < (m : Int) → u ∉ topS →
        (raw.count u < raw.count t ∨ (raw.count u = raw.count t ∧ t < u)) := by
      intro t ht u hu0 hum hun
      have ht_top : t ∈ top := (htopS_mem t).mp ht
      have hu_vals : u ∈ vals := (hvals_mem u).mpr ⟨hu0, hum⟩
      have hu_S : u ∈ S := hS_perm.mem_iff.mpr hu_vals
      have hu_drop : u ∈ S.drop MAX_CLUSTERS := by
        have hsplit : u ∈ S.take MAX_CLUSTERS ++ S.drop MAX_CLUSTERS := by
          rw [List.take_append_drop]; exact hu_S
        rcases List.mem_append.mp hsplit with h | h
        · exfalso
          apply hun
          rw [htopS_mem]
          rw [htop]
          exact h
        · exact h
      have hsorted : List.Sorted (prefOrder (fun v => nn.count v)) S := by
        rw [hSd]; exact List.sorted_insertionSort _ _
      have hsorted2 : List.Pairwise (prefOrder (fun v => nn.count v))
          (S.take MAX_CLUSTERS ++ S.drop MAX_CLUSTERS) := by
        rw [List.take_append_drop]; exact hsorted
      have hpair := List.pairwise_append.mp hsorted2
      have ht_take : t ∈ S.take MAX_CLUSTERS := by rw [← htop]; exact ht_top
      have hcross := hpair.2.2 t ht_take u hu_drop
      have hct : nn.count t = raw.count t :=
        count_filter_of_pos raw t (htopS_bounds t ht).1
      have hcu : nn.count u = raw.count u := count_filter_of_pos raw u hu0
      have htu : t ≠ u := fun h => hun (h ▸ ht)
      rcases hcross with h | ⟨h1, h2⟩
      · left; rw [← hct, ← hcu]; exact h
      · right
        exact ⟨by rw [← hct, ← hcu]; exact h1.symm, lt_of_le_of_ne h2 htu⟩
    have hrank : ∀ l ∈ topS,
        topS.indexOf l = (topS.filter (fun x => x < l)).length :=
      indexOf_eq_length_filter_lt topS htopS_sorted
    have hmap : (raw.map (fun l => if l ∈ top then l else -1)).map
        (fun l => if l ∈ topS then ((topS.indexOf l : Nat) : Int) else -1) =
        raw.map (fun l => if l ∈ topS then
          ((topS.filter (fun x => x < l)).length : Int) else -1) := by
      rw [List.map_map]
      apply List.map_congr_left
      intro l _
      simp only [Function.comp_apply]
      by_cases hl_top : l ∈ top
      · rw [if_pos hl_top]
        have hlS : l ∈ topS := (htopS_mem l).mpr hl_top
        rw [if_pos hlS, if_pos hlS, hrank l hlS]
      · rw [if_neg hl_top]
        have hneg : (-1 : Int) ∉ topS := fun h => by
          have := (htopS_bounds _ h).1
          omega
        rw [if_neg hneg, if_neg (fun h => hl_top ((htopS_mem l).mp h))]
    rw [hmap]
    have hg_mem : ∀ x : Int,
        x ∈ ((raw.map (fun l => if l ∈ topS then
            ((topS.filter (fun y => y < l)).length : Int) else -1)).filter
          (fun l => 0 ≤ l)).dedup ↔ (0 ≤ x ∧ x < ((4 : Nat) : Int)) := by
      intro x
      rw [List.mem_dedup, List.mem_filter]
      simp only [decide_eq_true_eq]
      constructor
      · rintro ⟨hmem, hx0⟩
        obtain ⟨l0, hl0, hgl⟩ := List.mem_map.mp hmem
        by_cases hc : l0 ∈ topS
        · rw [if_pos hc] at hgl
          have hidx : (topS.filter (fun y => y < l0)).length = topS.indexOf l0 :=
            (hrank l0 hc).symm
          have hlt : topS.indexOf l0 < topS.length :=
            List.indexOf_lt_length.mpr hc
          rw [htopS_len, hM] at hlt
          rw [hidx] at hgl
          constructor
          · exact hx0
          · omega
        · rw [if_neg hc] at hgl
          omega
      · rintro ⟨hx0, hx4⟩
        refine ⟨?_, hx0⟩
        have hk : x.toNat < topS.length := by rw [htopS_len, hM]; omega
        set l0 := topS.get ⟨x.toNat, hk⟩ with hl0
        have hl0S : l0 ∈ topS := List.get_mem topS _ _
        refine List.mem_map.mpr ⟨l0, htopS_raw l0 hl0S, ?_⟩
        rw [if_pos hl0S]
        rw [hl0, filter_lt_get_length topS htopS_sorted x.toNat hk]
        omega
    have hcnt_E : countNonNoise (raw.map (fun l => if l ∈ topS then
        ((topS.filter (fun y => y < l)).length : Int) else -1)) = 4 := by
      unfold countNonNoise
      exact length_eq_of_mem_iff_range _ (List.nodup_dedup _) 4 hg_mem
    refine ⟨by rw [List.length_map], ?_, ?_, fun _ =>
      ⟨topS, htopS_nodup, htopS_len, htopS_bounds, hdom,
        fun i => List.get?_map _ _ _⟩⟩
    · rw [hcnt_E, hM]
    · intro l hl
      obtain ⟨l0, hl0, hgl⟩ := List.mem_map.mp hl
      by_cases hc : l0 ∈ topS
      · rw [if_pos hc] at hgl
        right
        have hidx : (topS.filter (fun y => y < l0)).length = topS.indexOf l0 :=
          (hrank l0 hc).symm
        have hlt : topS.indexOf l0 < topS.length := List.indexOf_lt_length.mpr hc
        rw [htopS_len, hM] at hlt
        rw [hcnt_E]
        rw [hidx] at hgl
        constructor
        · omega
        · omega
      · rw [if_neg hc] at hgl
        left
        omega
  · next hncap =>
    rw [hvals_len] at hncap
    refine ⟨rfl, ?_, ?_, ?_⟩
    · rw [hcnt_raw]
      omega
    · intro l hl
      rcases hd.1 l hl with h | ⟨h1, h2⟩
      · exact Or.inl h
      · refine Or.inr ⟨h1, ?_⟩
        rw [hcnt_raw]
        exact h2
    · intro h4
      omega

/-- C7: for every labelling returned by the clusterer (given that the raw
density clustering honours its dense-labelling contract), every label is −1
or lies in `[0, k-1]` where `k` is the number of distinct non-noise labels
and `k ≤ MAX_CLUSTERS = 4`; and when the raw clustering yields more than 4
clusters, exactly the 4 largest by point count survive (ties toward the
lower original id), every other point becomes noise, and the survivors are
renumbered to `0..3` in ascending order of their original ids (each label's
new id is the number of surviving ids below it). -/
theorem c7_cluster_cap (env : Env) (vectors : List Vec) (m : Nat)
    (hd : DenseRaw (env.hdbscan vectors) m) :
    (cluster_vectors env vectors).length = (env.hdbscan vectors).length
    ∧ countNonNoise (cluster_vectors env vectors) ≤ MAX_CLUSTERS
    ∧ (∀ l ∈ cluster_vectors env vectors,
        l = -1 ∨ (0 ≤ l ∧ l < (countNonNoise (cluster_vectors env vectors) : Int)))
    ∧ (MAX_CLUSTERS < m →
        ∃ T : List Int, T.Nodup ∧ T.length = MAX_CLUSTERS
          ∧ (∀ t ∈ T, 0 ≤ t ∧ t < (m : Int))
          ∧ (∀ t ∈ T, ∀ u : Int, 0 ≤ u → u < (m : Int) → u ∉ T →
              ((env.hdbscan vectors).count u < (env.hdbscan vectors).count t ∨
                ((env.hdbscan vectors).count u = (env.hdbscan vectors).count t
                  ∧ t < u)))
          ∧ (∀ i : Nat, (cluster_vectors env vectors).get? i =
              ((env.hdbscan vectors).get? i).map (fun l =>
                if l ∈ T then ((T.filter (fun x => x < l)).length : Int)
                else -1))) :=
  capLabels_spec (env.hdbscan vectors) m hd

/-- Witness for C7 on a concrete 5-cluster labelling exercising the cap. -/
theorem c7_cluster_cap_witness :
    (cluster_vectors envC7 []).length = (envC7.hdbscan []).length
    ∧ countNonNoise (cluster_vectors envC7 []) ≤ MAX_CLUSTERS
    ∧ (∀ l ∈ cluster_vectors envC7 [],
        l = -1 ∨ (0 ≤ l ∧ l < (countNonNoise (cluster_vectors envC7 []) : Int)))
    ∧ (MAX_CLUSTERS < 5 →
        ∃ T : List Int, T.Nodup ∧ T.length = MAX_CLUSTERS
          ∧ (∀ t ∈ T, 0 ≤ t ∧ t < ((5 : Nat) : Int))
          ∧ (∀ t ∈ T, ∀ u : Int, 0 ≤ u → u < ((5 : Nat) : Int) → u ∉ T →
              ((envC7.hdbscan []).count u < (envC7.hdbscan []).count t ∨
                ((envC7.hdbscan []).count u = (envC7.hdbscan []).count t
                  ∧ t < u)))
          ∧ (∀ i : Nat, (cluster_vectors envC7 []).get? i =
              ((envC7.hdbscan []).get? i).map (fun l =>
                if l ∈ T then ((T.filter (fun x => x < l)).length : Int)
                else -1))) :=
  c7_cluster_cap envC7 [] 5
    ⟨by decide, by intro j hj; interval_cases j <;> decide⟩

/-- C2 (code bug): after `pick` at round 1 and `pick` at round 2, a
`backtrack` to the root navigation node does not succeed: it raises
`No snapshot for round 0` and leaves the session unchanged, because
snapshots are keyed from round 1 and round 0 never receives one, making
`Session.backtrack`'s root-restore branch unreachable. -/
theorem c2_backtrack_root_fails :
    start_search envC2 "s1" "q" "xq" hits8 = some sA
    ∧ sA.round = 1 ∧ apiStep envC2 sA (Op.pick 0) = (sB, none)
    ∧ sB.round = 2 ∧ apiStep envC2 sB (Op.pick 0) = (sC, none)
    ∧ apiStep envC2 sC (Op.backtrack "root") =
        (sC, some "No snapshot for round 0") := by decide

end HippoMind
